import Mathlib

/-!
# bun.report: `src/bin/ensure-no-coredump.c`

A shallow embedding of `ensure_no_coredump` and of the two operating-system
calls it makes, followed by the properties of the function.

The C function has two bodies, selected by `#ifdef _WIN32`.  The body for the
other targets declares an automatic `struct rlimit rl`, calls
`getrlimit(RLIMIT_CORE, &rl)`, and when `rl.rlim_cur > 0` stores `0` in
`rl.rlim_cur` and calls `setrlimit(RLIMIT_CORE, &rl)`.  Neither return value
is examined.

`rlim_t` is an unsigned integer type, so the limits are natural numbers and
the test `rl.rlim_cur > 0` is an unsigned comparison.  The function performs
no arithmetic on them.
-/

namespace EnsureNoCoredump

/-! ## Data model -/

/-- The `struct rlimit` of `<sys/resource.h>`: soft limit `rlim_cur`, hard
limit `rlim_max`. -/
structure rlimit where
  rlim_cur : Nat
  rlim_max : Nat
deriving DecidableEq, Repr

/-- Number of value bits of the unsigned type `rlim_t`. -/
def rlim_bits : Nat := 64

/-- Modelled from the spec: the constant `RLIM_INFINITY` comes from the system
header `<sys/resource.h>`, which is not among the sources; it is the all-ones
value of the unsigned type `rlim_t`. -/
def RLIM_INFINITY : Nat := 2 ^ rlim_bits - 1

/-- One operating-system call as it appears in the log of a process: which
call, the pair passed to `setrlimit`, and the value the call returned
(`0` on success, `-1` on failure). -/
inductive Syscall where
  | getrlimit (rc : Int)
  | setrlimit (req : rlimit) (rc : Int)
deriving DecidableEq, Repr

/-- Return value of a logged call. -/
def Syscall.rc : Syscall → Int
  | .getrlimit rc => rc
  | .setrlimit _ rc => rc

/-- Whether a logged call is a `setrlimit`. -/
def Syscall.isSet : Syscall → Bool
  | .getrlimit _ => false
  | .setrlimit _ _ => true

/-- The pair a logged call asked the kernel to install: none for
`getrlimit`, the argument for `setrlimit`. -/
def Syscall.request : Syscall → Option rlimit
  | .getrlimit _ => none
  | .setrlimit req _ => some req

/-- The part of a process the function can touch: the kernel's
`RLIMIT_CORE` pair and the log of the operating-system calls made so far
(oldest first). -/
structure Process where
  core : rlimit
  calls : List Syscall
deriving DecidableEq, Repr

/-- What the function meets during one call and does not control: whether the
operating system lets `getrlimit` and `setrlimit` succeed, and the bytes that
happen to lie in the automatic variable `rl`, which is declared without an
initialiser. -/
structure Env where
  getrlimit_ok : Bool
  setrlimit_ok : Bool
  rl0 : rlimit
deriving DecidableEq, Repr

/-- The build target, which `#ifdef _WIN32` selects on. -/
inductive Target where
  | win32
  | posix
deriving DecidableEq, Repr

/-! ## The operating-system calls -/

/-- `getrlimit(RLIMIT_CORE, &rl)`: on success the kernel's pair is stored in
`rl` and `0` is returned; on failure `rl` keeps its contents and `-1` is
returned.  The kernel's pair is not changed either way. -/
def getrlimit (e : Env) (rl : rlimit) (p : Process) : Int × rlimit × Process :=
  if e.getrlimit_ok then
    (0, p.core, { p with calls := p.calls ++ [Syscall.getrlimit 0] })
  else
    (-1, rl, { p with calls := p.calls ++ [Syscall.getrlimit (-1)] })

/-- `setrlimit(RLIMIT_CORE, &rl)`: on success the kernel's pair becomes `rl`
and `0` is returned; on failure the pair is unchanged and `-1` is
returned. -/
def setrlimit (e : Env) (rl : rlimit) (p : Process) : Int × Process :=
  if e.setrlimit_ok then
    (0, { core := rl, calls := p.calls ++ [Syscall.setrlimit rl 0] })
  else
    (-1, { p with calls := p.calls ++ [Syscall.setrlimit rl (-1)] })

/-- The rule of POSIX for `setrlimit` by a process without privilege, with
`old` the pair in force: the new soft limit does not exceed the new hard
limit, and the hard limit is not raised. -/
def posix_accepts (old new : rlimit) : Bool :=
  decide (new.rlim_cur ≤ new.rlim_max) && decide (new.rlim_max ≤ old.rlim_max)

/-! ## The function -/

/-- The body compiled when `_WIN32` is not defined. -/
def ensure_no_coredump_posix (e : Env) (p : Process) : Unit × Process :=
  let rl := e.rl0
  let r := getrlimit e rl p
  let rl := r.2.1
  let p := r.2.2
  if rl.rlim_cur > 0 then
    let rl := { rl with rlim_cur := 0 }
    let s := setrlimit e rl p
    ((), s.2)
  else
    ((), p)

/-- The function `ensure_no_coredump`: an empty body under `_WIN32`, the
query and conditional update otherwise. -/
def ensure_no_coredump : Target → Env → Process → Unit × Process
  | .win32, _, p => ((), p)
  | .posix, e, p => ensure_no_coredump_posix e p

/-- The process after one call. -/
def after (t : Target) (e : Env) (p : Process) : Process :=
  (ensure_no_coredump t e p).2

/-- The operating-system calls one call of the function adds to the log. -/
def issued (t : Target) (e : Env) (p : Process) : List Syscall :=
  (after t e p).calls.drop p.calls.length

/-! ## Two threads

For the interleavings of two concurrent calls the body is cut at its two
operating-system calls: a thread first performs the query, then the test and
the conditional update.  Each thread has its own automatic variable `rl`; the
kernel's pair and the log are shared. -/

/-- Where a thread stands in the body: before `getrlimit`, between
`getrlimit` and the test (holding its own `rl`), or returned. -/
inductive Pc where
  | start
  | queried (rl : rlimit)
  | done
deriving DecidableEq, Repr

/-- One atomic step of a thread running the body compiled without `_WIN32`. -/
def thread_step (e : Env) : Pc → Process → Pc × Process
  | .start, p =>
    let r := getrlimit e e.rl0 p
    (.queried r.2.1, r.2.2)
  | .queried rl, p =>
    if rl.rlim_cur > 0 then
      (.done, (setrlimit e { rl with rlim_cur := 0 } p).2)
    else
      (.done, p)
  | .done, p => (.done, p)

/-- The two threads. -/
inductive Tid where
  | t1
  | t2
deriving DecidableEq, Repr

/-- Two threads inside `ensure_no_coredump` and the process they share. -/
structure Conc where
  pc1 : Pc
  pc2 : Pc
  proc : Process
deriving DecidableEq, Repr

/-- The thread picked by the scheduler takes its next step. -/
def conc_step (e1 e2 : Env) (c : Conc) : Tid → Conc
  | .t1 =>
    let r := thread_step e1 c.pc1 c.proc
    { c with pc1 := r.1, proc := r.2 }
  | .t2 =>
    let r := thread_step e2 c.pc2 c.proc
    { c with pc2 := r.1, proc := r.2 }

/-- Run a schedule, first entry first. -/
def conc_run (e1 e2 : Env) (sched : List Tid) (c : Conc) : Conc :=
  sched.foldl (conc_step e1 e2) c

/-- Both threads about to enter the function. -/
def conc_init (p : Process) : Conc :=
  { pc1 := .start, pc2 := .start, proc := p }

/-- Number of steps a thread has taken, capped at the two the body has. -/
def Pc.rank : Pc → Nat
  | .start => 0
  | .queried _ => 1
  | .done => 2

/-- What a thread at `pc` knows about the shared pair, given the hard limit
`h` in force before the two calls and whether the operating system grants
this thread its update (`ok`): a pair it has read carries `h`, and when its
update is granted, once it has seen or made the soft limit `0` the kernel's
soft limit is `0`. -/
def pc_ok (h : Nat) (ok : Bool) (p : Process) : Pc → Prop
  | .start => True
  | .queried rl =>
    rl.rlim_max = h ∧ (ok = true → rl.rlim_cur = 0 → p.core.rlim_cur = 0)
  | .done => ok = true → p.core.rlim_cur = 0

/-- Invariant of the two-thread system when both queries succeed. -/
def conc_inv (h : Nat) (e1 e2 : Env) (c : Conc) : Prop :=
  c.proc.core.rlim_max = h ∧
  pc_ok h e1.setrlimit_ok c.proc c.pc1 ∧
  pc_ok h e2.setrlimit_ok c.proc c.pc2

/-! ## One call: what the body does in each case -/

/-- The log only grows by what `drop` then returns. -/
theorem drop_length_append (xs ys : List Syscall) :
    (xs ++ ys).drop xs.length = ys := by
  simp

/-- Under `_WIN32` nothing is issued. -/
theorem issued_win32 (e : Env) (p : Process) : issued .win32 e p = [] := by
  simp [issued, after, ensure_no_coredump]

/-- Query succeeds, soft limit already `0`: the query is the only call. -/
theorem after_query_zero (e : Env) (p : Process)
    (hg : e.getrlimit_ok = true) (h0 : p.core.rlim_cur = 0) :
    after .posix e p =
      { core := p.core, calls := p.calls ++ [Syscall.getrlimit 0] } := by
  simp [after, ensure_no_coredump, ensure_no_coredump_posix, getrlimit, hg, h0]

/-- Query succeeds, soft limit positive, update succeeds. -/
theorem after_query_update (e : Env) (p : Process)
    (hg : e.getrlimit_ok = true) (hs : e.setrlimit_ok = true)
    (hpos : 0 < p.core.rlim_cur) :
    after .posix e p =
      { core := { rlim_cur := 0, rlim_max := p.core.rlim_max },
        calls := p.calls ++ [Syscall.getrlimit 0,
          Syscall.setrlimit { rlim_cur := 0, rlim_max := p.core.rlim_max } 0] } := by
  simp [after, ensure_no_coredump, ensure_no_coredump_posix, getrlimit, setrlimit,
    hg, hs, hpos]

/-- Query succeeds, soft limit positive, update fails. -/
theorem after_query_update_failed (e : Env) (p : Process)
    (hg : e.getrlimit_ok = true) (hs : e.setrlimit_ok = false)
    (hpos : 0 < p.core.rlim_cur) :
    after .posix e p =
      { core := p.core,
        calls := p.calls ++ [Syscall.getrlimit 0,
          Syscall.setrlimit { rlim_cur := 0, rlim_max := p.core.rlim_max } (-1)] } := by
  simp [after, ensure_no_coredump, ensure_no_coredump_posix, getrlimit, setrlimit,
    hg, hs, hpos]

/-- Query fails and the bytes in `rl` read as a soft limit of `0`: no update. -/
theorem after_query_failed_zero (e : Env) (p : Process)
    (hg : e.getrlimit_ok = false) (h0 : e.rl0.rlim_cur = 0) :
    after .posix e p =
      { core := p.core, calls := p.calls ++ [Syscall.getrlimit (-1)] } := by
  simp [after, ensure_no_coredump, ensure_no_coredump_posix, getrlimit, hg, h0]

/-- Query fails, the bytes in `rl` read as a positive soft limit, and the
update succeeds: the kernel receives the hard limit found in `rl`. -/
theorem after_query_failed_update (e : Env) (p : Process)
    (hg : e.getrlimit_ok = false) (hs : e.setrlimit_ok = true)
    (hpos : 0 < e.rl0.rlim_cur) :
    after .posix e p =
      { core := { rlim_cur := 0, rlim_max := e.rl0.rlim_max },
        calls := p.calls ++ [Syscall.getrlimit (-1),
          Syscall.setrlimit { rlim_cur := 0, rlim_max := e.rl0.rlim_max } 0] } := by
  simp [after, ensure_no_coredump, ensure_no_coredump_posix, getrlimit, setrlimit,
    hg, hs, hpos]

/-- Query fails, the bytes in `rl` read as a positive soft limit, and the
update fails as well. -/
theorem after_query_failed_update_failed (e : Env) (p : Process)
    (hg : e.getrlimit_ok = false) (hs : e.setrlimit_ok = false)
    (hpos : 0 < e.rl0.rlim_cur) :
    after .posix e p =
      { core := p.core,
        calls := p.calls ++ [Syscall.getrlimit (-1),
          Syscall.setrlimit { rlim_cur := 0, rlim_max := e.rl0.rlim_max } (-1)] } := by
  simp [after, ensure_no_coredump, ensure_no_coredump_posix, getrlimit, setrlimit,
    hg, hs, hpos]

/-- With a successful query the hard limit is the one before the call,
whatever the update does. -/
theorem hard_kept_of_query_ok (e : Env) (p : Process)
    (hg : e.getrlimit_ok = true) :
    (after .posix e p).core.rlim_max = p.core.rlim_max := by
  rcases Nat.eq_zero_or_pos p.core.rlim_cur with h0 | hpos
  · rw [after_query_zero e p hg h0]
  · cases hs : e.setrlimit_ok
    · rw [after_query_update_failed e p hg hs hpos]
    · rw [after_query_update e p hg hs hpos]

/-- When the operating system refuses the update, the pair after the call is
the pair before it, whether or not the query succeeded. -/
theorem core_kept_of_update_refused (e : Env) (p : Process)
    (hs : e.setrlimit_ok = false) :
    (after .posix e p).core = p.core := by
  simp only [after, ensure_no_coredump, ensure_no_coredump_posix, getrlimit, setrlimit, hs]
  split <;> split <;> rfl

/-- With a successful query and update the pair after the call is
`(0, hard)`. -/
theorem core_of_calls_ok (e : Env) (p : Process)
    (hg : e.getrlimit_ok = true) (hs : e.setrlimit_ok = true) :
    (after .posix e p).core = { rlim_cur := 0, rlim_max := p.core.rlim_max } := by
  rcases Nat.eq_zero_or_pos p.core.rlim_cur with h0 | hpos
  · rw [after_query_zero e p hg h0]
    cases hc : p.core
    simp_all
  · rw [after_query_update e p hg hs hpos]

/-- The pair after a call whose query succeeds: `(0, hard)` when the soft limit
was positive and the update went through, the pair before the call
otherwise. -/
theorem core_of_query_ok (e : Env) (p : Process) (hg : e.getrlimit_ok = true) :
    (after .posix e p).core =
      if 0 < p.core.rlim_cur ∧ e.setrlimit_ok = true then
        { rlim_cur := 0, rlim_max := p.core.rlim_max }
      else p.core := by
  rcases Nat.eq_zero_or_pos p.core.rlim_cur with h0 | hpos
  · simp [after_query_zero e p hg h0, h0]
  · cases hs : e.setrlimit_ok
    · simp [after_query_update_failed e p hg hs hpos]
    · simp [after_query_update e p hg hs hpos, hpos]

/-- The calls issued when the query succeeds: the query, then the update
exactly when the soft limit read is positive. -/
theorem issued_of_query_ok (e : Env) (p : Process) (hg : e.getrlimit_ok = true) :
    issued .posix e p =
      if 0 < p.core.rlim_cur then
        [Syscall.getrlimit 0,
          Syscall.setrlimit { rlim_cur := 0, rlim_max := p.core.rlim_max }
            (if e.setrlimit_ok then 0 else -1)]
      else [Syscall.getrlimit 0] := by
  rcases Nat.eq_zero_or_pos p.core.rlim_cur with h0 | hpos
  · simp [issued, after_query_zero e p hg h0, h0]
  · cases hs : e.setrlimit_ok
    · simp [issued, after_query_update_failed e p hg hs hpos, hpos]
    · simp [issued, after_query_update e p hg hs hpos, hpos]

/-- The calls issued when the query fails start with the failed query. -/
theorem failed_query_issued (e : Env) (p : Process) (hg : e.getrlimit_ok = false) :
    Syscall.getrlimit (-1) ∈ issued .posix e p := by
  rcases Nat.eq_zero_or_pos e.rl0.rlim_cur with h0 | hpos
  · simp [issued, after_query_failed_zero e p hg h0]
  · cases hs : e.setrlimit_ok
    · simp [issued, after_query_failed_update_failed e p hg hs hpos]
    · simp [issued, after_query_failed_update e p hg hs hpos]

/-! ## Properties of one call -/

/-- C1: on a target with the resource-limit facility, for every pair in force
before the call, when every call the function makes to `getrlimit` and
`setrlimit` returns success, the soft limit after the call is `0`. -/
theorem soft_limit_zero_when_calls_succeed (e : Env) (p : Process)
    (hok : ∀ c ∈ issued .posix e p, c.rc = 0) :
    (after .posix e p).core.rlim_cur = 0 := by
  cases hg : e.getrlimit_ok
  · have := hok _ (failed_query_issued e p hg)
    simp [Syscall.rc] at this
  · rcases Nat.eq_zero_or_pos p.core.rlim_cur with h0 | hpos
    · rw [after_query_zero e p hg h0]; exact h0
    · cases hs : e.setrlimit_ok
      · have hmem : Syscall.setrlimit { rlim_cur := 0, rlim_max := p.core.rlim_max } (-1)
            ∈ issued .posix e p := by
          simp [issued_of_query_ok e p hg, hpos, hs]
        have := hok _ hmem
        simp [Syscall.rc] at this
      · rw [after_query_update e p hg hs hpos]

/-- Instance of C1: soft limit 5, hard limit 100, both calls succeed. -/
theorem soft_limit_zero_when_calls_succeed_witness :
    (∀ c ∈ issued .posix ⟨true, true, ⟨0, 0⟩⟩ ⟨⟨5, 100⟩, []⟩, c.rc = 0) ∧
    (after .posix ⟨true, true, ⟨0, 0⟩⟩ ⟨⟨5, 100⟩, []⟩).core.rlim_cur = 0 :=
  ⟨by decide,
   soft_limit_zero_when_calls_succeed ⟨true, true, ⟨0, 0⟩⟩ ⟨⟨5, 100⟩, []⟩ (by decide)⟩

/-- C2: the function at a query that fails.  The kernel holds (5, 100), the
automatic variable `rl` holds the stale pair (7, 50); `getrlimit` returns `-1`
and leaves `rl` alone, the test `7 > 0` passes, and `setrlimit` is called with
(0, 50), a request the rule of POSIX lets through: the hard limit goes from
100 to 50, so it is not the hard limit before the call. -/
theorem hard_limit_replaced_after_failed_query :
    issued .posix ⟨false, true, ⟨7, 50⟩⟩ ⟨⟨5, 100⟩, []⟩ =
      [Syscall.getrlimit (-1), Syscall.setrlimit ⟨0, 50⟩ 0] ∧
    posix_accepts ⟨5, 100⟩ ⟨0, 50⟩ = true ∧
    (after .posix ⟨false, true, ⟨7, 50⟩⟩ ⟨⟨5, 100⟩, []⟩).core = ⟨0, 50⟩ ∧
    (after .posix ⟨false, true, ⟨7, 50⟩⟩ ⟨⟨5, 100⟩, []⟩).core.rlim_max ≠ 100 := by
  decide

/-- C3, counterexample: two calls in succession need not leave the pair one
call leaves.  From (5, 100) with both queries answered, an update refused in
the first call and granted in the second gives (5, 100) after one call and
(0, 100) after two.  With both queries failing, stale bytes (7, 50) in the
first call and (3, 20) in the second give (0, 50) after one call and (0, 20)
after two. -/
theorem twice_differs_from_once :
    (after .posix ⟨true, false, ⟨0, 0⟩⟩ ⟨⟨5, 100⟩, []⟩).core = ⟨5, 100⟩ ∧
    (after .posix ⟨true, true, ⟨0, 0⟩⟩
      (after .posix ⟨true, false, ⟨0, 0⟩⟩ ⟨⟨5, 100⟩, []⟩)).core = ⟨0, 100⟩ ∧
    (after .posix ⟨true, true, ⟨0, 0⟩⟩
      (after .posix ⟨true, false, ⟨0, 0⟩⟩ ⟨⟨5, 100⟩, []⟩)).core ≠
      (after .posix ⟨true, false, ⟨0, 0⟩⟩ ⟨⟨5, 100⟩, []⟩).core ∧
    (after .posix ⟨false, true, ⟨7, 50⟩⟩ ⟨⟨5, 100⟩, []⟩).core = ⟨0, 50⟩ ∧
    (after .posix ⟨false, true, ⟨3, 20⟩⟩
      (after .posix ⟨false, true, ⟨7, 50⟩⟩ ⟨⟨5, 100⟩, []⟩)).core = ⟨0, 20⟩ ∧
    (after .posix ⟨false, true, ⟨3, 20⟩⟩
      (after .posix ⟨false, true, ⟨7, 50⟩⟩ ⟨⟨5, 100⟩, []⟩)).core ≠
      (after .posix ⟨false, true, ⟨7, 50⟩⟩ ⟨⟨5, 100⟩, []⟩).core := by
  decide

/-- C3, amended: the function is idempotent on the pair of limits whenever the
query succeeds in both calls and the operating system does not refuse the
update in the first call only (it grants it in the first call, or refuses it
in the second): for every pair in force before the first call, the pair after
two calls in succession is the pair after one call. -/
theorem twice_same_as_once (e1 e2 : Env) (p : Process)
    (hg1 : e1.getrlimit_ok = true) (hg2 : e2.getrlimit_ok = true)
    (hs : e1.setrlimit_ok = true ∨ e2.setrlimit_ok = false) :
    (after .posix e2 (after .posix e1 p)).core = (after .posix e1 p).core := by
  rw [core_of_query_ok e2 (after .posix e1 p) hg2, core_of_query_ok e1 p hg1]
  by_cases hpos : 0 < p.core.rlim_cur
  · rcases hs with h1 | h2
    · simp [hpos, h1]
    · simp [hpos, h2]
  · simp [hpos]

/-- Instance of C3, amended: from (5, 100), with an update granted in the
first call and refused in the second, and different stale bytes in `rl` in the
two calls, both one call and two calls leave (0, 100). -/
theorem twice_same_as_once_witness :
    (after .posix ⟨true, false, ⟨9, 9⟩⟩
        (after .posix ⟨true, true, ⟨7, 50⟩⟩ ⟨⟨5, 100⟩, []⟩)).core = ⟨0, 100⟩ ∧
    (after .posix ⟨true, false, ⟨9, 9⟩⟩
        (after .posix ⟨true, true, ⟨7, 50⟩⟩ ⟨⟨5, 100⟩, []⟩)).core =
      (after .posix ⟨true, true, ⟨7, 50⟩⟩ ⟨⟨5, 100⟩, []⟩).core :=
  ⟨by decide,
   twice_same_as_once ⟨true, true, ⟨7, 50⟩⟩ ⟨true, false, ⟨9, 9⟩⟩ ⟨⟨5, 100⟩, []⟩
     rfl rfl (Or.inl rfl)⟩

/-- With a successful query and a soft limit of `0`, whatever the hard limit,
the query is the only call issued, no `setrlimit` call is made, and the pair
after the call is the pair before it, with soft limit `0`. -/
theorem no_update_of_query_ok_zero (e : Env) (p : Process)
    (hg : e.getrlimit_ok = true) (h0 : p.core.rlim_cur = 0) :
    issued .posix e p = [Syscall.getrlimit 0] ∧
    (issued .posix e p).all (fun c => !c.isSet) = true ∧
    (after .posix e p).core = p.core ∧
    (after .posix e p).core.rlim_cur = 0 := by
  have hi : issued .posix e p = [Syscall.getrlimit 0] := by
    simp [issued_of_query_ok e p hg, h0]
  refine ⟨hi, ?_, ?_, ?_⟩
  · rw [hi]; rfl
  · rw [after_query_zero e p hg h0]
  · rw [after_query_zero e p hg h0]; exact h0

/-- C4: the function at a soft limit of `0` and a query that fails.  The
kernel holds (0, 100), the automatic variable `rl` holds the stale pair
(7, 50); `getrlimit` returns `-1` and leaves `rl` alone, the test `7 > 0`
passes, and `setrlimit` is called with (0, 50): a `setrlimit` call is made
although the soft limit was `0`, and the pair after the call, (0, 50), is not
the pair before it. -/
theorem update_issued_at_soft_limit_zero_after_failed_query :
    issued .posix ⟨false, true, ⟨7, 50⟩⟩ ⟨⟨0, 100⟩, []⟩ =
      [Syscall.getrlimit (-1), Syscall.setrlimit ⟨0, 50⟩ 0] ∧
    (issued .posix ⟨false, true, ⟨7, 50⟩⟩ ⟨⟨0, 100⟩, []⟩).any
      (fun c => c.isSet) = true ∧
    (after .posix ⟨false, true, ⟨7, 50⟩⟩ ⟨⟨0, 100⟩, []⟩).core = ⟨0, 50⟩ ∧
    (after .posix ⟨false, true, ⟨7, 50⟩⟩ ⟨⟨0, 100⟩, []⟩).core ≠ ⟨0, 100⟩ := by
  decide

/-- C5, counterexample: with soft and hard limit both `RLIM_INFINITY`, a
refused update leaves the soft limit at `RLIM_INFINITY`, not `0`; and after a
failed query with stale bytes (0, 0) in `rl` no update is requested at all,
although the soft limit is not zero. -/
theorem unlimited_soft_limit_can_survive :
    (after .posix ⟨true, false, ⟨0, 0⟩⟩
      ⟨⟨RLIM_INFINITY, RLIM_INFINITY⟩, []⟩).core = ⟨RLIM_INFINITY, RLIM_INFINITY⟩ ∧
    (after .posix ⟨true, false, ⟨0, 0⟩⟩
      ⟨⟨RLIM_INFINITY, RLIM_INFINITY⟩, []⟩).core.rlim_cur ≠ 0 ∧
    issued .posix ⟨false, true, ⟨0, 0⟩⟩ ⟨⟨RLIM_INFINITY, RLIM_INFINITY⟩, []⟩ =
      [Syscall.getrlimit (-1)] ∧
    (after .posix ⟨false, true, ⟨0, 0⟩⟩
      ⟨⟨RLIM_INFINITY, RLIM_INFINITY⟩, []⟩).core.rlim_cur ≠ 0 := by
  decide

/-- C5, amended: when the query succeeds, the unsigned test `rl.rlim_cur > 0`
holds of every non-zero soft limit read, the all-ones value `RLIM_INFINITY`
included, and the request `(0, hard)` is issued.  From soft and hard limit
both `RLIM_INFINITY` the pair after the call is `(0, RLIM_INFINITY)` when the
operating system grants the update and unchanged when it refuses; from any
non-zero soft limit `v` and any hard limit the log is the query followed by
the request `(0, hard)`, and the pair after the call is `(0, hard)` when the
update is granted and `(v, hard)` when it is refused. -/
theorem update_requested_for_every_nonzero_soft_limit (e : Env)
    (v hard : Nat) (calls : List Syscall)
    (hg : e.getrlimit_ok = true) (hv : 0 < v) :
    issued .posix e ⟨⟨RLIM_INFINITY, RLIM_INFINITY⟩, calls⟩ =
      [Syscall.getrlimit 0,
        Syscall.setrlimit ⟨0, RLIM_INFINITY⟩ (if e.setrlimit_ok then 0 else -1)] ∧
    (after .posix e ⟨⟨RLIM_INFINITY, RLIM_INFINITY⟩, calls⟩).core =
      ⟨if e.setrlimit_ok then 0 else RLIM_INFINITY, RLIM_INFINITY⟩ ∧
    issued .posix e ⟨⟨v, hard⟩, calls⟩ =
      [Syscall.getrlimit 0,
        Syscall.setrlimit ⟨0, hard⟩ (if e.setrlimit_ok then 0 else -1)] ∧
    (after .posix e ⟨⟨v, hard⟩, calls⟩).core =
      ⟨if e.setrlimit_ok then 0 else v, hard⟩ := by
  have hinf : 0 < RLIM_INFINITY := by decide
  refine ⟨?_, ?_, ?_, ?_⟩
  · simp [issued_of_query_ok e _ hg, hinf]
  · rw [core_of_query_ok e _ hg]
    cases hs : e.setrlimit_ok <;> simp [hinf]
  · simp [issued_of_query_ok e _ hg, hv]
  · rw [core_of_query_ok e _ hg]
    cases hs : e.setrlimit_ok <;> simp [hv]

/-- Instance of C5, amended: soft and hard limit both `RLIM_INFINITY` and
calls that succeed; afterwards the soft limit is `0` and the hard limit is
still `RLIM_INFINITY`. -/
theorem update_requested_for_every_nonzero_soft_limit_witness :
    (after .posix ⟨true, true, ⟨0, 0⟩⟩ ⟨⟨RLIM_INFINITY, RLIM_INFINITY⟩, []⟩).core =
      ⟨0, RLIM_INFINITY⟩ ∧
    (issued .posix ⟨true, true, ⟨0, 0⟩⟩ ⟨⟨RLIM_INFINITY, RLIM_INFINITY⟩, []⟩ =
       [Syscall.getrlimit 0,
         Syscall.setrlimit ⟨0, RLIM_INFINITY⟩
           (if (⟨true, true, ⟨0, 0⟩⟩ : Env).setrlimit_ok then 0 else -1)] ∧
     (after .posix ⟨true, true, ⟨0, 0⟩⟩ ⟨⟨RLIM_INFINITY, RLIM_INFINITY⟩, []⟩).core =
       ⟨if (⟨true, true, ⟨0, 0⟩⟩ : Env).setrlimit_ok then 0 else RLIM_INFINITY,
         RLIM_INFINITY⟩ ∧
     issued .posix ⟨true, true, ⟨0, 0⟩⟩ ⟨⟨5, 100⟩, []⟩ =
       [Syscall.getrlimit 0,
         Syscall.setrlimit ⟨0, 100⟩
           (if (⟨true, true, ⟨0, 0⟩⟩ : Env).setrlimit_ok then 0 else -1)] ∧
     (after .posix ⟨true, true, ⟨0, 0⟩⟩ ⟨⟨5, 100⟩, []⟩).core =
       ⟨if (⟨true, true, ⟨0, 0⟩⟩ : Env).setrlimit_ok then 0 else 5, 100⟩) :=
  ⟨by decide,
   update_requested_for_every_nonzero_soft_limit ⟨true, true, ⟨0, 0⟩⟩
     5 100 [] rfl (by decide)⟩

/-- C6: under `_WIN32` the function is a no-op: for every process and every
behaviour of the operating system it returns, issues no call, and returns the
process it was given, pair of limits and log included. -/
theorem win32_is_noop (e : Env) (p : Process) :
    ensure_no_coredump .win32 e p = ((), p) ∧
    issued .win32 e p = [] ∧
    after .win32 e p = p :=
  ⟨rfl, issued_win32 e p, rfl⟩

/-- C7: the function always returns, reports nothing, and carries on past a
failed call exactly as past a successful one.  On either target, for every
process and every behaviour of the operating system (each of `getrlimit`,
`setrlimit` succeeding or failing, any bytes in `rl`) the call yields the unit
value and a final process, the same value as under any other behaviour.  On a
target with the facility the query is always followed by the test on whatever
`rl` then holds, and by the update exactly when that soft limit is positive:
the return codes, `-1` for each call that failed, reach the log and nothing
else, neither the value returned nor the calls made. -/
theorem returns_unit_and_carries_on_whatever_the_calls_return
    (t : Target) (e e2 : Env) (p : Process) :
    ensure_no_coredump t e p = ((), after t e p) ∧
    (ensure_no_coredump t e p).1 = (ensure_no_coredump t e2 p).1 ∧
    (issued .posix e p).map Syscall.rc =
      (if e.getrlimit_ok then 0 else -1) ::
        (if 0 < (getrlimit e e.rl0 p).2.1.rlim_cur then
          [if e.setrlimit_ok then 0 else -1] else []) ∧
    (issued .posix e p).map Syscall.request =
      none ::
        (if 0 < (getrlimit e e.rl0 p).2.1.rlim_cur then
          [some ⟨0, (getrlimit e e.rl0 p).2.1.rlim_max⟩] else []) := by
  refine ⟨rfl, rfl, ?_, ?_⟩
  · cases hg : e.getrlimit_ok <;> cases hs : e.setrlimit_ok <;>
      by_cases hpos : 0 < (getrlimit e e.rl0 p).2.1.rlim_cur <;>
      simp_all [issued, after, ensure_no_coredump, ensure_no_coredump_posix,
        getrlimit, setrlimit, Syscall.rc]
  · cases hg : e.getrlimit_ok <;> cases hs : e.setrlimit_ok <;>
      by_cases hpos : 0 < (getrlimit e e.rl0 p).2.1.rlim_cur <;>
      simp_all [issued, after, ensure_no_coredump, ensure_no_coredump_posix,
        getrlimit, setrlimit, Syscall.request]

/-- C9: whenever the query succeeds, every `setrlimit` call the function
issues requests exactly `(0, hard)` with `hard` the hard limit just read: the
requested soft limit does not exceed the requested hard limit, the hard limit
is not raised, and so the request passes the rule of POSIX for a process
without privilege. -/
theorem update_request_is_zero_and_hard (e : Env) (p : Process)
    (req : rlimit) (rc : Int)
    (hg : e.getrlimit_ok = true)
    (hmem : Syscall.setrlimit req rc ∈ issued .posix e p) :
    req = ⟨0, p.core.rlim_max⟩ ∧
    req.rlim_cur ≤ req.rlim_max ∧
    req.rlim_max ≤ p.core.rlim_max ∧
    posix_accepts p.core req = true := by
  have hreq : req = ⟨0, p.core.rlim_max⟩ := by
    rw [issued_of_query_ok e p hg] at hmem
    by_cases hpos : 0 < p.core.rlim_cur
    · simp [hpos] at hmem
      exact hmem.1
    · simp [hpos] at hmem
  subst hreq
  simp [posix_accepts]

/-- Instance of C9: from (5, 100) the request logged is (0, 100). -/
theorem update_request_is_zero_and_hard_witness :
    Syscall.setrlimit ⟨0, 100⟩ 0 ∈ issued .posix ⟨true, true, ⟨7, 50⟩⟩ ⟨⟨5, 100⟩, []⟩ ∧
    ((⟨0, 100⟩ : rlimit) = ⟨0, (⟨5, 100⟩ : rlimit).rlim_max⟩ ∧
     (⟨0, 100⟩ : rlimit).rlim_cur ≤ (⟨0, 100⟩ : rlimit).rlim_max ∧
     (⟨0, 100⟩ : rlimit).rlim_max ≤ (⟨5, 100⟩ : rlimit).rlim_max ∧
     posix_accepts ⟨5, 100⟩ ⟨0, 100⟩ = true) :=
  ⟨by decide,
   update_request_is_zero_and_hard ⟨true, true, ⟨7, 50⟩⟩ ⟨⟨5, 100⟩, []⟩ ⟨0, 100⟩ 0
     rfl (by decide)⟩

/-- C10: with a successful query the function never raises the soft limit, and
a failed update changes nothing: for every pair before the call the soft limit
after it is at most the soft limit before it, and either the operating system
lets the update through or the pair after the call is the pair before it. -/
theorem soft_limit_not_raised_and_failed_update_keeps_pair (e : Env) (p : Process)
    (hg : e.getrlimit_ok = true) :
    (after .posix e p).core.rlim_cur ≤ p.core.rlim_cur ∧
    (e.setrlimit_ok = true ∨ (after .posix e p).core = p.core) := by
  rw [core_of_query_ok e p hg]
  cases hs : e.setrlimit_ok
  · simp
  · by_cases hpos : 0 < p.core.rlim_cur
    · simp [hpos]
    · simp [hpos]

/-- Instance of C10: from (5, 100) with an update that fails the pair stays
(5, 100). -/
theorem soft_limit_not_raised_and_failed_update_keeps_pair_witness :
    (after .posix ⟨true, false, ⟨7, 50⟩⟩ ⟨⟨5, 100⟩, []⟩).core = ⟨5, 100⟩ ∧
    ((after .posix ⟨true, false, ⟨7, 50⟩⟩ ⟨⟨5, 100⟩, []⟩).core.rlim_cur ≤
        (⟨⟨5, 100⟩, []⟩ : Process).core.rlim_cur ∧
     ((⟨true, false, ⟨7, 50⟩⟩ : Env).setrlimit_ok = true ∨
      (after .posix ⟨true, false, ⟨7, 50⟩⟩ ⟨⟨5, 100⟩, []⟩).core =
        (⟨⟨5, 100⟩, []⟩ : Process).core)) :=
  ⟨by decide,
   soft_limit_not_raised_and_failed_update_keeps_pair ⟨true, false, ⟨7, 50⟩⟩
     ⟨⟨5, 100⟩, []⟩ rfl⟩

/-! ## Two concurrent calls -/

/-- The two steps of a thread, run back to back, are one call of the body. -/
theorem thread_steps_eq_call (e : Env) (p : Process) :
    thread_step e (thread_step e .start p).1 (thread_step e .start p).2 =
      (.done, after .posix e p) := by
  simp only [thread_step, after, ensure_no_coredump, ensure_no_coredump_posix]
  split <;> rfl

/-- A step moves a thread one place forward, and not past the end of the body. -/
theorem rank_thread_step (e : Env) (pc : Pc) (p : Process) :
    (thread_step e pc p).1.rank = min 2 (pc.rank + 1) := by
  cases pc with
  | start => rfl
  | queried rl =>
    simp only [thread_step]
    split <;> rfl
  | done => rfl

/-- What a thread knows stays true when the kernel's soft limit, once `0`,
remains `0`. -/
theorem pc_ok_mono (h : Nat) (ok : Bool) (p q : Process) (pc : Pc)
    (hz : p.core.rlim_cur = 0 → q.core.rlim_cur = 0) (hp : pc_ok h ok p pc) :
    pc_ok h ok q pc := by
  cases pc with
  | start => trivial
  | queried rl => exact ⟨hp.1, fun hok h0 => hz (hp.2 hok h0)⟩
  | done => exact fun hok => hz (hp hok)

/-- One step of a thread whose query succeeds: the hard limit stays `h`, the
thread's knowledge is right afterwards, and a soft limit of `0` stays `0`,
whether or not the operating system grants the thread its update. -/
theorem thread_step_keeps (e : Env) (h : Nat) (pc : Pc) (p : Process)
    (hg : e.getrlimit_ok = true)
    (hmax : p.core.rlim_max = h) (hpc : pc_ok h e.setrlimit_ok p pc) :
    (thread_step e pc p).2.core.rlim_max = h ∧
    pc_ok h e.setrlimit_ok (thread_step e pc p).2 (thread_step e pc p).1 ∧
    (p.core.rlim_cur = 0 → (thread_step e pc p).2.core.rlim_cur = 0) := by
  cases pc with
  | start =>
    simp [thread_step, getrlimit, hg, pc_ok, hmax]
  | queried rl =>
    obtain ⟨hrl, hzero⟩ := hpc
    by_cases hpos : rl.rlim_cur > 0
    · cases hs : e.setrlimit_ok
      · simp [thread_step, setrlimit, hs, hpos, pc_ok, hmax]
      · simp [thread_step, setrlimit, hs, hpos, pc_ok, hrl]
    · have h0 : rl.rlim_cur = 0 := by omega
      refine ⟨?_, ?_, ?_⟩
      · simpa [thread_step, h0] using hmax
      · have hdone : pc_ok h e.setrlimit_ok p .done := fun hok => hzero hok h0
        simpa [thread_step, h0] using hdone
      · intro hc
        simpa [thread_step, h0] using hc
  | done =>
    refine ⟨?_, ?_, ?_⟩
    · simpa [thread_step] using hmax
    · simpa [thread_step] using hpc
    · intro hc
      simpa [thread_step] using hc

/-- The invariant holds before either thread has made a call. -/
theorem conc_inv_init (e1 e2 : Env) (p : Process) :
    conc_inv p.core.rlim_max e1 e2 (conc_init p) :=
  ⟨rfl, trivial, trivial⟩

/-- Every step of either thread keeps the invariant. -/
theorem conc_inv_step (e1 e2 : Env) (h : Nat) (c : Conc) (t : Tid)
    (hg1 : e1.getrlimit_ok = true) (hg2 : e2.getrlimit_ok = true)
    (hinv : conc_inv h e1 e2 c) : conc_inv h e1 e2 (conc_step e1 e2 c t) := by
  obtain ⟨hmax, h1, h2⟩ := hinv
  cases t with
  | t1 =>
    obtain ⟨km, kp, kz⟩ := thread_step_keeps e1 h c.pc1 c.proc hg1 hmax h1
    exact ⟨km, kp, pc_ok_mono h _ _ _ _ kz h2⟩
  | t2 =>
    obtain ⟨km, kp, kz⟩ := thread_step_keeps e2 h c.pc2 c.proc hg2 hmax h2
    exact ⟨km, pc_ok_mono h _ _ _ _ kz h1, kp⟩

/-- The invariant holds after every schedule. -/
theorem conc_inv_run (e1 e2 : Env) (h : Nat) (sched : List Tid) (c : Conc)
    (hg1 : e1.getrlimit_ok = true) (hg2 : e2.getrlimit_ok = true)
    (hinv : conc_inv h e1 e2 c) : conc_inv h e1 e2 (conc_run e1 e2 sched c) := by
  induction sched generalizing c with
  | nil => exact hinv
  | cons t ts ih =>
    exact ih (conc_step e1 e2 c t) (conc_inv_step e1 e2 h c t hg1 hg2 hinv)

/-- How far the first thread is after a schedule. -/
theorem rank_pc1_run (e1 e2 : Env) (sched : List Tid) (c : Conc) :
    (conc_run e1 e2 sched c).pc1.rank = min 2 (c.pc1.rank + sched.count .t1) := by
  induction sched generalizing c with
  | nil =>
    have : c.pc1.rank ≤ 2 := by cases c.pc1 <;> simp [Pc.rank]
    simp [conc_run]; omega
  | cons t ts ih =>
    have ih2 := ih (conc_step e1 e2 c t)
    simp only [conc_run, List.foldl_cons] at ih2 ⊢
    rw [ih2]
    cases t with
    | t1 =>
      simp only [conc_step, rank_thread_step, List.count_cons_self]
      omega
    | t2 =>
      simp [conc_step]

/-- How far the second thread is after a schedule. -/
theorem rank_pc2_run (e1 e2 : Env) (sched : List Tid) (c : Conc) :
    (conc_run e1 e2 sched c).pc2.rank = min 2 (c.pc2.rank + sched.count .t2) := by
  induction sched generalizing c with
  | nil =>
    have : c.pc2.rank ≤ 2 := by cases c.pc2 <;> simp [Pc.rank]
    simp [conc_run]; omega
  | cons t ts ih =>
    have ih2 := ih (conc_step e1 e2 c t)
    simp only [conc_run, List.foldl_cons] at ih2 ⊢
    rw [ih2]
    cases t with
    | t1 =>
      simp [conc_step]
    | t2 =>
      simp only [conc_step, rank_thread_step, List.count_cons_self]
      omega

/-- A thread that has taken both steps has returned. -/
theorem done_of_rank (pc : Pc) (h : pc.rank = 2) : pc = .done := by
  cases pc <;> simp [Pc.rank] at h ⊢

/-- C8, counterexample: two concurrent calls need not end at soft limit `0`
with the hard limit kept.  From (5, 100), both threads querying before either
updates: when the operating system refuses both updates the pair stays
(5, 100); when the first thread's query fails with stale bytes (7, 50) in its
`rl` and its update comes last, the pair ends as (0, 50). -/
theorem concurrent_calls_can_end_elsewhere :
    (conc_run ⟨true, false, ⟨0, 0⟩⟩ ⟨true, false, ⟨0, 0⟩⟩ [.t1, .t2, .t2, .t1]
        (conc_init ⟨⟨5, 100⟩, []⟩)).proc.core = ⟨5, 100⟩ ∧
    (conc_run ⟨true, false, ⟨0, 0⟩⟩ ⟨true, false, ⟨0, 0⟩⟩ [.t1, .t2, .t2, .t1]
        (conc_init ⟨⟨5, 100⟩, []⟩)).proc.core.rlim_cur ≠ 0 ∧
    (conc_run ⟨false, true, ⟨7, 50⟩⟩ ⟨true, true, ⟨0, 0⟩⟩ [.t1, .t2, .t2, .t1]
        (conc_init ⟨⟨5, 100⟩, []⟩)).proc.core = ⟨0, 50⟩ ∧
    (conc_run ⟨false, true, ⟨7, 50⟩⟩ ⟨true, true, ⟨0, 0⟩⟩ [.t1, .t2, .t2, .t1]
        (conc_init ⟨⟨5, 100⟩, []⟩)).proc.core.rlim_max ≠ 100 := by
  decide

/-- C8, amended: two threads run the function at once, each call to the
operating system being one atomic step; both queries succeed and the operating
system grants the update of at least one of the threads.  For every pair in
force beforehand and every interleaving of the two steps of one thread with
the two steps of the other, both threads have returned, the final soft limit
is `0` and the final hard limit is the one in force beforehand: the pair a
single call leaves when its calls succeed. -/
theorem concurrent_calls_end_as_one_call (e1 e2 : Env) (p : Process)
    (sched : List Tid)
    (hg1 : e1.getrlimit_ok = true) (hg2 : e2.getrlimit_ok = true)
    (hs : e1.setrlimit_ok = true ∨ e2.setrlimit_ok = true)
    (h1 : sched.count .t1 = 2) (h2 : sched.count .t2 = 2) :
    (conc_run e1 e2 sched (conc_init p)).pc1 = .done ∧
    (conc_run e1 e2 sched (conc_init p)).pc2 = .done ∧
    (conc_run e1 e2 sched (conc_init p)).proc.core = ⟨0, p.core.rlim_max⟩ ∧
    (conc_run e1 e2 sched (conc_init p)).proc.core =
      (after .posix ⟨true, true, e1.rl0⟩ p).core := by
  have hd1 : (conc_run e1 e2 sched (conc_init p)).pc1 = .done := by
    apply done_of_rank
    rw [rank_pc1_run, h1]
    rfl
  have hd2 : (conc_run e1 e2 sched (conc_init p)).pc2 = .done := by
    apply done_of_rank
    rw [rank_pc2_run, h2]
    rfl
  obtain ⟨hmax, hk1, hk2⟩ :=
    conc_inv_run e1 e2 p.core.rlim_max sched (conc_init p) hg1 hg2
      (conc_inv_init e1 e2 p)
  rw [hd1] at hk1
  rw [hd2] at hk2
  have hcur : (conc_run e1 e2 sched (conc_init p)).proc.core.rlim_cur = 0 := by
    rcases hs with hs1 | hs2
    · exact hk1 hs1
    · exact hk2 hs2
  have hcore : (conc_run e1 e2 sched (conc_init p)).proc.core = ⟨0, p.core.rlim_max⟩ := by
    cases hc : (conc_run e1 e2 sched (conc_init p)).proc.core with
    | mk cur mx =>
      rw [hc] at hmax hcur
      simp only at hmax hcur
      rw [hcur, hmax]
  exact ⟨hd1, hd2, hcore, by rw [hcore, core_of_calls_ok _ p rfl rfl]⟩

/-- Instance of C8, amended: from (5, 100), both threads query before either
updates, the second thread's update is granted and the first thread's, which
comes last, is refused. -/
theorem concurrent_calls_end_as_one_call_witness :
    (conc_run ⟨true, false, ⟨7, 50⟩⟩ ⟨true, true, ⟨9, 9⟩⟩ [.t1, .t2, .t2, .t1]
        (conc_init ⟨⟨5, 100⟩, []⟩)).proc =
      ⟨⟨0, 100⟩, [Syscall.getrlimit 0, Syscall.getrlimit 0,
        Syscall.setrlimit ⟨0, 100⟩ 0, Syscall.setrlimit ⟨0, 100⟩ (-1)]⟩ ∧
    ((conc_run ⟨true, false, ⟨7, 50⟩⟩ ⟨true, true, ⟨9, 9⟩⟩ [.t1, .t2, .t2, .t1]
        (conc_init ⟨⟨5, 100⟩, []⟩)).pc1 = .done ∧
     (conc_run ⟨true, false, ⟨7, 50⟩⟩ ⟨true, true, ⟨9, 9⟩⟩ [.t1, .t2, .t2, .t1]
        (conc_init ⟨⟨5, 100⟩, []⟩)).pc2 = .done ∧
     (conc_run ⟨true, false, ⟨7, 50⟩⟩ ⟨true, true, ⟨9, 9⟩⟩ [.t1, .t2, .t2, .t1]
        (conc_init ⟨⟨5, 100⟩, []⟩)).proc.core =
       ⟨0, (⟨⟨5, 100⟩, []⟩ : Process).core.rlim_max⟩ ∧
     (conc_run ⟨true, false, ⟨7, 50⟩⟩ ⟨true, true, ⟨9, 9⟩⟩ [.t1, .t2, .t2, .t1]
        (conc_init ⟨⟨5, 100⟩, []⟩)).proc.core =
       (after .posix ⟨true, true, (⟨true, false, ⟨7, 50⟩⟩ : Env).rl0⟩
         ⟨⟨5, 100⟩, []⟩).core) :=
  ⟨by decide,
   concurrent_calls_end_as_one_call ⟨true, false, ⟨7, 50⟩⟩ ⟨true, true, ⟨9, 9⟩⟩
     ⟨⟨5, 100⟩, []⟩ [.t1, .t2, .t2, .t1] rfl rfl (Or.inr rfl)
     (by decide) (by decide)⟩

end EnsureNoCoredump
